import Mathlib

/-!
Verification development for the Efficient_GPT2 repository: a shallow
embedding in Lean 4 of the training loop in `src/minGPT/mingpt/trainer.py`
and of the synthetic sorting dataset in `src/train_fsdp.py`, followed by
theorems settling the behavioural properties claimed about them.

The numerical work (tensor forward/backward, the optimizer update, the
distributed backend) is delegated by the source to an external framework
and is out of scope; what the embedding captures is exactly what the
source file itself implements: the order and multiplicity of the framework
calls made by the loop, the control flow of `Trainer.__init__`, the
callback registry, and the dataset generator's list-level computation.
-/

/-! ## Events of the training loop

`Trainer.run` (trainer.py lines 114-179) drives, per iteration of its
`while True` loop, an inner loop `for i in range(steps)` with
`steps = config.cross_batch_num` (line 146/150).  Each inner pass performs,
in source order: fetch a batch (lines 151-157), forward (line 160),
`model.zero_grad(set_to_none=True)` (line 163), `self.loss.backward()`
(line 164), `clip_grad_norm_` (line 165).  After the inner loop the cycle
performs `self.optimizer.step()` (line 166) and
`self.trigger_callbacks('on_batch_end')` (line 168).  We record these
framework calls as an event trace. -/

inductive TrainEvent where
  | fetchBatch : Nat → Nat → TrainEvent
  | forward : Nat → Nat → TrainEvent
  | zeroGrad : Nat → Nat → TrainEvent
  | backward : Nat → Nat → TrainEvent
  | clipGradNorm : Nat → Nat → TrainEvent
  | optStep : Nat → TrainEvent
  | callbacksFired : Nat → TrainEvent
deriving DecidableEq, Repr

/-- The calls issued by one pass of the inner micro-batch loop
(trainer.py lines 150-165), in source order: the batch fetch, the forward
pass, the gradient zeroing (line 163 -- inside the inner loop), the
backward pass, and the gradient-norm clipping.  `cycle` is the value of
`iter_num` during this outer iteration and `micro` the inner index `i`. -/
def microBatchEvents (cycle micro : Nat) : List TrainEvent :=
  [TrainEvent.fetchBatch cycle micro, TrainEvent.forward cycle micro,
   TrainEvent.zeroGrad cycle micro, TrainEvent.backward cycle micro,
   TrainEvent.clipGradNorm cycle micro]

/-- The calls issued by one full iteration of the `while True` loop
(trainer.py lines 147-168): `steps` inner micro-batch passes, then the
single `optimizer.step()` (line 166) and the single
`trigger_callbacks('on_batch_end')` dispatch (line 168). -/
def cycleEvents (steps cycle : Nat) : List TrainEvent :=
  ((List.range steps).flatMap (microBatchEvents cycle)) ++
    [TrainEvent.optStep cycle, TrainEvent.callbacksFired cycle]

def isZeroGrad : TrainEvent → Bool
  | TrainEvent.zeroGrad _ _ => true
  | _ => false

def isOptStep : TrainEvent → Bool
  | TrainEvent.optStep _ => true
  | _ => false

def isCallbacksFired : TrainEvent → Bool
  | TrainEvent.callbacksFired _ => true
  | _ => false

def isForward : TrainEvent → Bool
  | TrainEvent.forward _ _ => true
  | _ => false

def isBackward : TrainEvent → Bool
  | TrainEvent.backward _ _ => true
  | _ => false

def isClip : TrainEvent → Bool
  | TrainEvent.clipGradNorm _ _ => true
  | _ => false

/-- Number of events of a trace satisfying `p`. -/
def countEvents (p : TrainEvent → Bool) (tr : List TrainEvent) : Nat :=
  tr.countP p

/-- The `while True` loop of `Trainer.run` (trainer.py lines 147-176),
fueled: executes at most `fuel` outer iterations.  Each iteration appends
its cycle's events, then increments `iter_num` (line 169) and breaks when
`config.max_iters is not None and iter_num >= max_iters` (lines 175-176).
Returns `some (final iter_num, trace)` when the loop exits via the break
within `fuel` iterations, `none` otherwise.  (The non-distributed data
loader samples with replacement with `num_samples = 1e10` (line 132), so
iterator exhaustion does not occur on the modelled horizon.) -/
def runLoop (maxIters : Option Nat) (steps : Nat) :
    Nat → Nat → List TrainEvent → Option (Nat × List TrainEvent)
  | 0, _, _ => none
  | fuel + 1, iterNum, acc =>
    let acc2 := acc ++ cycleEvents steps iterNum
    let iterNum2 := iterNum + 1
    match maxIters with
    | some m =>
      if m ≤ iterNum2 then some (iterNum2, acc2)
      else runLoop maxIters steps fuel iterNum2 acc2
    | none => runLoop maxIters steps fuel iterNum2 acc2

/-- `Trainer.run`'s loop started as the source starts it: `iter_num = 0`
(line 143) and an empty trace. -/
def trainerRun (maxIters : Option Nat) (steps fuel : Nat) :
    Option (Nat × List TrainEvent) :=
  runLoop maxIters steps fuel 0 []

/-! ## Trainer.__init__ (trainer.py lines 74-102)

`__init__` executes a sequence of statements, each either binding an
attribute on `self` or raising a Python exception.  Line 80 reads the
name `confit` (`self.use_fsdp = confit.use_fsdp`); no such name is bound
anywhere in trainer.py (the parameter is called `config`), so evaluating
it raises `NameError`.  Line 85 reads `os.env`; the `os` module has no
attribute `env` (the environment mapping is `os.environ`), so evaluating
it raises `AttributeError`.  We model name/attribute resolution against
the names actually in scope. -/

inductive PyError where
  | nameError : String → PyError
  | attributeError : String → String → PyError
  | valueError : String → PyError
deriving DecidableEq, Repr

/-- Result of running `Trainer.__init__`: the attributes of `self` whose
assignment statements completed, in execution order, and the exception
that aborted the constructor, if any. -/
structure InitResult where
  assignedFields : List String
  outcome : Option PyError
deriving DecidableEq, Repr

/-- Names resolvable from the body of `Trainer.__init__`: its parameters
and the module-level imports of trainer.py (lines 6-18).  The name
`confit` read on line 80 is not among them. -/
def initScopeNames : List String :=
  ["self", "config", "model", "train_dataset",
   "time", "defaultdict", "torch", "DataLoader", "dist", "mp",
   "FSDP", "CPUOffload", "os", "DistributedSampler",
   "profile", "record_function", "ProfilerActivity", "schedule",
   "CN", "TorchProfiler", "Trainer"]

/-- Python name resolution inside `Trainer.__init__`. -/
def evalName (n : String) : Except PyError Unit :=
  if initScopeNames.contains n then Except.ok ()
  else Except.error (PyError.nameError n)

/-- Attributes of Python's `os` module relevant to trainer.py line 85:
the module exposes `environ` (and `getenv`), not `env`. -/
def osModuleAttrs : List String := ["environ", "getenv", "getcwd", "path"]

/-- Python attribute resolution on the `os` module. -/
def osAttr (a : String) : Except PyError Unit :=
  if osModuleAttrs.contains a then Except.ok ()
  else Except.error (PyError.attributeError "os" a)

/-- trainer.py line 85: `int(os.env.get("LOCAL_RANK", 0))`, evaluated in a
process whose environment is `env`.  The attribute access `os.env` is
resolved first; were it to succeed, the lookup would return the parsed
value of the `LOCAL_RANK` variable, defaulting to `0` when absent, and
raise `ValueError` on a malformed value (Python `int`). -/
def localRankLookup (env : String → Option String) : Except PyError Int :=
  match osAttr "env" with
  | Except.error e => Except.error e
  | Except.ok _ =>
    match env "LOCAL_RANK" with
    | none => Except.ok 0
    | some s =>
      match s.toInt? with
      | some n => Except.ok n
      | none => Except.error (PyError.valueError s)

/-- `Trainer.__init__` (trainer.py lines 74-102).  Lines 75-79 assign
`config`, `model`, `optimizer`, `train_dataset` and `callbacks` on
`self`; line 80 then evaluates the unbound name `confit`, which raises
and aborts the constructor.  The remaining statements (the
`if self.use_fsdp` device setup of lines 82-97, using `useFsdp` and the
process environment `env`, and the counters of lines 100-102) are kept in
the model for faithfulness to the source text, though they are reachable
only if `confit` were resolvable. -/
def trainerInit (useFsdp : Bool) (env : String → Option String) : InitResult :=
  let fields := ["config", "model", "optimizer", "train_dataset", "callbacks"]
  match evalName "confit" with
  | Except.error e => InitResult.mk fields (some e)
  | Except.ok _ =>
    let fields2 := fields ++ ["use_fsdp"]
    if useFsdp then
      match localRankLookup env with
      | Except.error e => InitResult.mk fields2 (some e)
      | Except.ok _ =>
        InitResult.mk
          (fields2 ++ ["local_rank", "device", "model",
                       "iter_num", "iter_time", "iter_dt"]) none
    else
      InitResult.mk
        (fields2 ++ ["device", "model", "iter_num", "iter_time", "iter_dt"])
        none

/-! ## Callback registry (trainer.py lines 104-112)

`add_callback` appends to the per-event list; `trigger_callbacks` runs
`for callback in self.callbacks.get(onevent, []): callback(self)`.  A
callback receives the trainer instance as its sole argument and may
mutate it; an exception raised by a callback propagates out of the `for`
loop (there is no `try` anywhere in `run` or `trigger_callbacks`).  We
model a callback as a state transformer that may raise. -/

def triggerCallbacks {σ ε : Type} : List (σ → Except ε σ) → σ → Except ε σ
  | [], s => Except.ok s
  | cb :: rest, s =>
    match cb s with
    | Except.ok s2 => triggerCallbacks rest s2
    | Except.error e => Except.error e

/-- `Trainer.add_callback` (lines 104-105): appends to the registration
list for the event. -/
def addCallback {σ ε : Type} (cbs : List (σ → Except ε σ))
    (cb : σ → Except ε σ) : List (σ → Except ε σ) :=
  cbs ++ [cb]

/-- A callback that cannot raise, as a state transformer. -/
def liftCb {σ ε : Type} (f : σ → σ) : σ → Except ε σ :=
  fun s => Except.ok (f s)

/-- Iterating a loop body that may raise: an uncaught exception in the
body of `while True` (trainer.py lines 147-176, which contains the
`trigger_callbacks` dispatch on line 168) ends the loop; no later
iteration runs. -/
def runCycles {σ ε : Type} (body : σ → Except ε σ) : Nat → σ → Except ε σ
  | 0, s => Except.ok s
  | n + 1, s =>
    match body s with
    | Except.ok s2 => runCycles body n s2
    | Except.error e => Except.error e

/-! ## SortDataset (train_fsdp.py lines 14-72)

`__getitem__` first rejection-samples an input sequence of the requested
split (lines 44-59): it draws `inp = torch.randint(self.num_digits,
size=(self.length,))` and a uniform coin `torch.rand(1).item() < 0.5`;
when the coin is below a half and `inp.unique().nelement() >
self.length // 2` it redraws; otherwise it computes
`h = hash(pickle.dumps(inp.tolist()))` and accepts exactly when
`('test' if h % 4 == 0 else 'train')` equals the dataset's split.
It then sorts the accepted sequence and builds the training pair
(lines 61-72).  Python's `pickle.dumps` and `hash` are library builtins,
fixed functions of their argument within one interpreter process; the
embedding takes them as parameters `dumps` and `ph`.  Python's `%` on a
possibly negative hash with positive modulus agrees with `Int.emod`. -/

/-- train_fsdp.py lines 56-57: the split label of a generated content,
`'test' if hash(pickle.dumps(content)) % 4 == 0 else 'train'`. -/
def splitLabel (dumps : List Int → List Nat) (ph : List Nat → Int)
    (content : List Int) : String :=
  if ph (dumps content) % 4 = 0 then "test" else "train"

/-- One draw of the rejection sampler: the fresh random sequence `inp`
(line 46) and the outcome of the comparison `torch.rand(1).item() < 0.5`
(line 50). -/
structure Draw where
  inp : List Int
  coinBelowHalf : Bool
deriving Repr

/-- Whether one iteration of the `while True` loop of `__getitem__`
(lines 45-59) accepts its draw: the draw is redrawn (`continue`) when the
coin is below a half and the number of distinct values of `inp` exceeds
`length // 2` (lines 50-53), and otherwise accepted exactly when its
hash-derived split label equals the requested split (lines 56-59). -/
def acceptsDraw (dumps : List Int → List Nat) (ph : List Nat → Int)
    (split : String) (len : Nat) (d : Draw) : Bool :=
  if d.coinBelowHalf && decide (len / 2 < d.inp.dedup.length) then false
  else splitLabel dumps ph d.inp == split

/-- The rejection-sampling loop of `__getitem__` (lines 44-59), fueled:
consumes draws `stream start, stream (start+1), ...` until one is
accepted, returning its sequence; `none` when no draw among the next
`fuel` many is accepted.  The source loop has no retry cap: it
corresponds to unbounded fuel. -/
def rejectionLoop (dumps : List Int → List Nat) (ph : List Nat → Int)
    (split : String) (len : Nat) (stream : Nat → Draw) :
    Nat → Nat → Option (List Int)
  | _, 0 => none
  | start, fuel + 1 =>
    let d := stream start
    if acceptsDraw dumps ph split len d then some d.inp
    else rejectionLoop dumps ph split len stream (start + 1) fuel

/-- train_fsdp.py line 62: `torch.sort(inp)[0]`, the values of `inp` in
non-decreasing order (stable ascending sort). -/
def torchSort (l : List Int) : List Int :=
  List.insertionSort (fun a b => a ≤ b) l

/-- train_fsdp.py line 71: the slice assignment `y[:n] = -1`: the first
`min n (length y)` positions become the ignore sentinel `-1`, the rest of
`y` is unchanged. -/
def maskTargets (n : Nat) (y : List Int) : List Int :=
  List.replicate (min n y.length) (-1) ++ y.drop n

/-- The deterministic tail of `__getitem__` (train_fsdp.py lines 61-72)
applied to an accepted sequence `inp` drawn with `self.length = L`:
`sol = torch.sort(inp)[0]`, `cat = torch.cat((inp, sol))`,
`x = cat[:-1]`, `y = cat[1:]` followed by `y[:self.length-1] = -1`;
returns the pair `(x, y)`. -/
def sortItem (L : Nat) (inp : List Int) : List Int × List Int :=
  let sol := torchSort inp
  let cat := inp ++ sol
  let x := cat.dropLast
  let y0 := cat.tail
  (x, maskTargets (L - 1) y0)

/-! ## Lemmas about the event trace -/

theorem countEvents_append (p : TrainEvent → Bool) (l₁ l₂ : List TrainEvent) :
    countEvents p (l₁ ++ l₂) = countEvents p l₁ + countEvents p l₂ := by
  simp [countEvents, List.countP_append]

theorem countEvents_flatMap_range (p : TrainEvent → Bool)
    (f : Nat → List TrainEvent) (m : Nat)
    (hf : ∀ i, countEvents p (f i) = m) :
    ∀ n, countEvents p ((List.range n).flatMap f) = n * m := by
  intro n
  induction n with
  | zero => simp [countEvents]
  | succ n ih =>
    rw [List.range_succ, List.flatMap_append, countEvents_append, ih]
    simp [hf n, Nat.succ_mul]

theorem countEvents_cycle (p : TrainEvent → Bool) (k c m t : Nat)
    (hm : ∀ i, countEvents p (microBatchEvents c i) = m)
    (ht : countEvents p [TrainEvent.optStep c, TrainEvent.callbacksFired c] = t) :
    countEvents p (cycleEvents k c) = k * m + t := by
  rw [cycleEvents, countEvents_append,
      countEvents_flatMap_range p (microBatchEvents c) m hm k, ht]

/-- Claim C1: the specification states that in `Trainer.run` with
`cross_batch_num = k` the gradient buffers are zeroed exactly once per
accumulation cycle (before the first micro-batch's backward pass), so
that the gradients of all `k` micro-batches accumulate for the single
optimizer step.  Evaluating the embedded loop at `cross_batch_num = 2`
shows the code instead zeroes the buffers once per micro-batch — twice
per cycle — and the second `zeroGrad` occurs after the first
micro-batch's backward pass, wiping its gradients before the
`optimizer.step()` call (trainer.py line 163 sits inside the inner
loop). -/
theorem zero_grad_twice_per_cycle_at_k2 :
    countEvents isZeroGrad (cycleEvents 2 0) = 2 ∧
    cycleEvents 2 0 =
      [TrainEvent.fetchBatch 0 0, TrainEvent.forward 0 0,
       TrainEvent.zeroGrad 0 0, TrainEvent.backward 0 0,
       TrainEvent.clipGradNorm 0 0,
       TrainEvent.fetchBatch 0 1, TrainEvent.forward 0 1,
       TrainEvent.zeroGrad 0 1, TrainEvent.backward 0 1,
       TrainEvent.clipGradNorm 0 1,
       TrainEvent.optStep 0, TrainEvent.callbacksFired 0] := by
  decide

/-- Claim C3: per iteration of the `while True` loop with
`cross_batch_num = k` — that is, per `k` forward/backward passes — the
embedded `Trainer.run` performs exactly one `optimizer.step()` and
exactly one `'on_batch_end'` callback dispatch, and neither of the two
occurs inside the inner micro-batch loop (their count over the inner
loop's trace is zero). -/
theorem one_opt_step_and_callback_per_cycle (k c : Nat) :
    countEvents isOptStep (cycleEvents k c) = 1 ∧
    countEvents isCallbacksFired (cycleEvents k c) = 1 ∧
    countEvents isForward (cycleEvents k c) = k ∧
    countEvents isBackward (cycleEvents k c) = k ∧
    countEvents isOptStep ((List.range k).flatMap (microBatchEvents c)) = 0 ∧
    countEvents isCallbacksFired ((List.range k).flatMap (microBatchEvents c)) = 0 := by
  refine ⟨?_, ?_, ?_, ?_, ?_, ?_⟩
  · simpa using countEvents_cycle isOptStep k c 0 1 (fun _ => rfl) rfl
  · simpa using countEvents_cycle isCallbacksFired k c 0 1 (fun _ => rfl) rfl
  · simpa using countEvents_cycle isForward k c 1 0 (fun _ => rfl) rfl
  · simpa using countEvents_cycle isBackward k c 1 0 (fun _ => rfl) rfl
  · simpa using countEvents_flatMap_range isOptStep (microBatchEvents c) 0
      (fun _ => rfl) k
  · simpa using countEvents_flatMap_range isCallbacksFired (microBatchEvents c) 0
      (fun _ => rfl) k

/-- Claim C4: gradient-norm clipping is applied exactly once per
micro-batch pass — immediately after that micro-batch's backward pass,
before the accumulation cycle completes — so with `cross_batch_num = k`
the embedded cycle clips `k` times per single optimizer step
(clip-then-accumulate, not accumulate-then-clip). -/
theorem clip_once_per_microbatch (k c i : Nat) :
    countEvents isClip (cycleEvents k c) = k ∧
    countEvents isOptStep (cycleEvents k c) = 1 ∧
    countEvents isClip (microBatchEvents c i) = 1 ∧
    microBatchEvents c i =
      [TrainEvent.fetchBatch c i, TrainEvent.forward c i,
       TrainEvent.zeroGrad c i, TrainEvent.backward c i,
       TrainEvent.clipGradNorm c i] := by
  refine ⟨?_, ?_, rfl, rfl⟩
  · simpa using countEvents_cycle isClip k c 1 0 (fun _ => rfl) rfl
  · simpa using countEvents_cycle isOptStep k c 0 1 (fun _ => rfl) rfl

theorem runLoop_none (steps : Nat) :
    ∀ fuel i acc, runLoop none steps fuel i acc = none := by
  intro fuel
  induction fuel with
  | zero => intro i acc; rfl
  | succ fuel ih =>
    intro i acc
    simp only [runLoop]
    exact ih _ _

theorem runLoop_some_exact (m steps : Nat) :
    ∀ fuel i acc, i < m → m - i ≤ fuel →
    ∃ tr, runLoop (some m) steps fuel i acc = some (m, acc ++ tr) ∧
          countEvents isOptStep tr = m - i := by
  intro fuel
  induction fuel with
  | zero => intro i acc hi hle; omega
  | succ fuel ih =>
    intro i acc hi hle
    by_cases hstop : m ≤ i + 1
    · have hm : i + 1 = m := by omega
      refine ⟨cycleEvents steps i, ?_, ?_⟩
      · simp only [runLoop, hstop, if_true, hm]
        simp
      · have h1 : countEvents isOptStep (cycleEvents steps i) = 1 := by
          simpa using countEvents_cycle isOptStep steps i 0 1 (fun _ => rfl) rfl
        omega
    · have h2 : i + 1 < m := by omega
      obtain ⟨tr, htr, hcount⟩ :=
        ih (i + 1) (acc ++ cycleEvents steps i) h2 (by omega)
      refine ⟨cycleEvents steps i ++ tr, ?_, ?_⟩
      · simp only [runLoop, hstop, if_false]
        rw [htr, List.append_assoc]
      · have h1 : countEvents isOptStep (cycleEvents steps i) = 1 := by
          simpa using countEvents_cycle isOptStep steps i 0 1 (fun _ => rfl) rfl
        rw [countEvents_append, h1, hcount]
        omega

/-- Claim C5: with `config.max_iters = 5` and distributed training
disabled, the embedded `Trainer.run` loop performs exactly 5 optimizer
steps, increments `iter_num` to exactly 5, and then returns (for every
fuel bound of at least 5, uniformly in `cross_batch_num`); with
`config.max_iters = None` the loop never terminates on its own: no fuel
bound makes it return. -/
theorem max_iters_five_exact (steps fuel : Nat) (hfuel : 5 ≤ fuel) :
    (∃ tr, trainerRun (some 5) steps fuel = some (5, tr) ∧
           countEvents isOptStep tr = 5) ∧
    (∀ g, trainerRun none steps g = none) := by
  constructor
  · obtain ⟨tr, htr, hc⟩ :=
      runLoop_some_exact 5 steps fuel 0 [] (by omega) (by omega)
    exact ⟨tr, by simpa [trainerRun] using htr, by simpa using hc⟩
  · intro g
    exact runLoop_none steps g 0 []

theorem max_iters_five_exact_witness :
    5 ≤ 5 ∧
    ((∃ tr, trainerRun (some 5) 1 5 = some (5, tr) ∧
            countEvents isOptStep tr = 5) ∧
     (∀ g, trainerRun none 1 g = none)) :=
  ⟨by decide, max_iters_five_exact 1 5 (by decide)⟩

/-- Claim C2 (counterexample): constructing a Trainer does raise
`NameError` on the unbound name `confit`, but not "before any field
assignment completes": evaluating the embedded constructor at a concrete
argument shows five attribute assignments (lines 75-79: `config`,
`model`, `optimizer`, `train_dataset`, `callbacks`) complete before the
error is raised. -/
theorem trainer_init_fields_assigned_before_error :
    (trainerInit false (fun _ => none)).assignedFields ≠ [] ∧
    (trainerInit false (fun _ => none)).assignedFields.length = 5 ∧
    (trainerInit false (fun _ => none)).outcome =
      some (PyError.nameError "confit") := by
  decide

/-- Claim C2 (amended): for every configuration and process environment,
`Trainer.__init__` raises `NameError` on the unbound name `confit` while
setting `self.use_fsdp` (trainer.py line 80) — after the five field
assignments of lines 75-79 complete and before `use_fsdp` or any later
field is assigned — so no Trainer instance can ever be successfully
created. -/
theorem trainer_init_always_name_error (useFsdp : Bool)
    (env : String → Option String) :
    (trainerInit useFsdp env).outcome = some (PyError.nameError "confit") ∧
    (trainerInit useFsdp env).assignedFields =
      ["config", "model", "optimizer", "train_dataset", "callbacks"] ∧
    "use_fsdp" ∉ (trainerInit useFsdp env).assignedFields := by
  refine ⟨rfl, rfl, ?_⟩
  intro hmem
  have : (trainerInit useFsdp env).assignedFields =
      ["config", "model", "optimizer", "train_dataset", "callbacks"] := rfl
  rw [this] at hmem
  simp at hmem

/-- Claim C10: the specification states that with FSDP enabled and
`LOCAL_RANK` absent from the environment, `Trainer.__init__` silently
defaults the local rank to 0.  Evaluating the embedded code at that
input: the constructor aborts with `NameError` on `confit` (line 80)
before the rank logic, `local_rank` is never assigned, and the rank
expression of line 85 itself, `os.env.get("LOCAL_RANK", 0)`, raises
`AttributeError` (the `os` module has no attribute `env`; the intended
`os.environ.get("LOCAL_RANK", 0)` would default to 0).  No silent
default to rank 0 occurs. -/
theorem no_silent_local_rank_default :
    (trainerInit true (fun _ => none)).outcome =
      some (PyError.nameError "confit") ∧
    "local_rank" ∉ (trainerInit true (fun _ => none)).assignedFields ∧
    localRankLookup (fun _ => none) =
      Except.error (PyError.attributeError "os" "env") := by
  refine ⟨rfl, ?_, rfl⟩
  intro hmem
  have h : (trainerInit true (fun _ => none)).assignedFields =
      ["config", "model", "optimizer", "train_dataset", "callbacks"] := rfl
  rw [h] at hmem
  simp at hmem

/-- Claim C6: the train/test split label of a generated example is a pure
function of the example's content: the content is serialized
(`pickle.dumps`) and hashed (`hash`, a fixed function within one
interpreter process), the label is `'test'` exactly when the hash is
congruent to 0 mod 4 and `'train'` otherwise, and identical contents
always receive the identical label, independently of any call counter or
sampler state. -/
theorem split_label_deterministic (dumps : List Int → List Nat)
    (ph : List Nat → Int) (c₁ c₂ : List Int) (hc : c₁ = c₂) :
    splitLabel dumps ph c₁ = splitLabel dumps ph c₂ ∧
    (splitLabel dumps ph c₁ = "test" ↔ ph (dumps c₁) % 4 = 0) ∧
    (splitLabel dumps ph c₁ = "train" ↔ ¬ ph (dumps c₁) % 4 = 0) := by
  subst hc
  have hne : ("train" : String) ≠ "test" := by decide
  have hne2 : ("test" : String) ≠ "train" := by decide
  refine ⟨rfl, ?_, ?_⟩ <;>
    · unfold splitLabel
      by_cases h : ph (dumps c₁) % 4 = 0 <;> simp [h, hne, hne2]

theorem split_label_deterministic_witness :
    ([0, 1] : List Int) = [0, 1] ∧
    (splitLabel (fun l => l.map Int.natAbs) (fun l => (l.sum : Int)) [0, 1] =
       splitLabel (fun l => l.map Int.natAbs) (fun l => (l.sum : Int)) [0, 1] ∧
     (splitLabel (fun l => l.map Int.natAbs) (fun l => (l.sum : Int)) [0, 1] =
        "test" ↔
       (fun l => (l.sum : Int)) ((fun l => l.map Int.natAbs) [0, 1]) % 4 = 0) ∧
     (splitLabel (fun l => l.map Int.natAbs) (fun l => (l.sum : Int)) [0, 1] =
        "train" ↔
       ¬ (fun l => (l.sum : Int)) ((fun l => l.map Int.natAbs) [0, 1]) % 4 = 0)) :=
  ⟨rfl, split_label_deterministic (fun l => l.map Int.natAbs)
    (fun l => (l.sum : Int)) [0, 1] [0, 1] rfl⟩

theorem torchSort_length (inp : List Int) :
    (torchSort inp).length = inp.length := by
  rw [torchSort, List.length_insertionSort]

/-- Shape of the target sequence built by `__getitem__`: for an accepted
sequence of length `L ≥ 1`, the target is the ignore sentinel repeated
`L - 1` times followed by the sorted sequence. -/
theorem sortItem_snd_eq (L : Nat) (inp : List Int)
    (hlen : inp.length = L) (hpos : 1 ≤ L) :
    (sortItem L inp).2 = List.replicate (L - 1) (-1) ++ torchSort inp := by
  cases inp with
  | nil =>
    exfalso
    simp only [List.length_nil] at hlen
    omega
  | cons a t =>
    have hsol : (torchSort (a :: t)).length = L := by
      rw [torchSort_length]; exact hlen
    have ht : t.length = L - 1 := by
      simp only [List.length_cons] at hlen; omega
    simp only [sortItem, maskTargets]
    have htail : ((a :: t) ++ torchSort (a :: t)).tail = t ++ torchSort (a :: t) := rfl
    rw [htail]
    have hlen2 : (t ++ torchSort (a :: t)).length = (L - 1) + L := by
      simp [ht, hsol]
    rw [hlen2]
    have hmin : min (L - 1) (L - 1 + L) = L - 1 := by omega
    rw [hmin]
    congr 1
    exact List.drop_left' ht

theorem sortItem_fst_eq (L : Nat) (inp : List Int) :
    (sortItem L inp).1 = (inp ++ torchSort inp).dropLast := rfl

/-- The first `L` positions of the input sequence fed to the transformer
are the unsorted problem sequence itself. -/
theorem sortItem_fst_take (L : Nat) (inp : List Int)
    (hlen : inp.length = L) (hpos : 1 ≤ L) :
    (sortItem L inp).1.take L = inp := by
  rw [sortItem_fst_eq, List.dropLast_eq_take, List.take_take]
  have hl : (inp ++ torchSort inp).length = L + L := by
    simp [torchSort_length, hlen]
  rw [hl]
  have hmin : min L (L + L - 1) = L := by omega
  rw [hmin]
  exact List.take_left' hlen

/-- Claim C7: for every example `(x, y)` produced by the deterministic
tail of `SortDataset.__getitem__` from an accepted sequence of length
`L ≥ 1` whose values are non-negative (as `torch.randint` guarantees):
`x` and `y` both have length `2L - 1`; the first `L - 1` positions of `y`
equal the ignore sentinel `-1` and no later position of `y` equals `-1`;
and the remaining `L` positions of `y` form a non-decreasing sequence
that is a permutation of the multiset of values of the input sequence,
i.e. of the first `L` positions of `x`. -/
theorem sort_item_target_properties (L : Nat) (inp : List Int)
    (hlen : inp.length = L) (hpos : 1 ≤ L) (hnn : ∀ v ∈ inp, 0 ≤ v) :
    (sortItem L inp).1.length = 2 * L - 1 ∧
    (sortItem L inp).2.length = 2 * L - 1 ∧
    (sortItem L inp).2.take (L - 1) = List.replicate (L - 1) (-1) ∧
    (∀ i v, L - 1 ≤ i → (sortItem L inp).2[i]? = some v → v ≠ -1) ∧
    List.Sorted (fun a b => a ≤ b) ((sortItem L inp).2.drop (L - 1)) ∧
    ((sortItem L inp).2.drop (L - 1)).Perm ((sortItem L inp).1.take L) := by
  have hsnd := sortItem_snd_eq L inp hlen hpos
  have hsol : (torchSort inp).length = L := by rw [torchSort_length]; exact hlen
  have hrep : (List.replicate (L - 1) (-1 : Int)).length = L - 1 :=
    List.length_replicate _ _
  have hdrop : (sortItem L inp).2.drop (L - 1) = torchSort inp := by
    rw [hsnd]; exact List.drop_left' hrep
  refine ⟨?_, ?_, ?_, ?_, ?_, ?_⟩
  · have hl : (inp ++ torchSort inp).length = L + L := by simp [hsol, hlen]
    rw [sortItem_fst_eq, List.length_dropLast, hl]
    omega
  · rw [hsnd, List.length_append, hrep, hsol]
    omega
  · rw [hsnd]
    exact List.take_left' hrep
  · intro i v hi hv
    rw [hsnd, List.getElem?_append_right (by rw [hrep]; exact hi)] at hv
    obtain ⟨hn, rfl⟩ := List.getElem?_eq_some_iff.mp hv
    have hmem : (torchSort inp)[i - (List.replicate (L - 1) (-1 : Int)).length] ∈
        torchSort inp := List.getElem_mem hn
    have hmem2 : (torchSort inp)[i - (List.replicate (L - 1) (-1 : Int)).length] ∈
        inp := (List.mem_insertionSort _).mp hmem
    have := hnn _ hmem2
    omega
  · rw [hdrop]
    exact List.sorted_insertionSort _ inp
  · rw [hdrop, sortItem_fst_take L inp hlen hpos]
    exact List.perm_insertionSort _ inp

theorem sort_item_target_properties_witness :
    (([0, 0, 2, 1, 0, 1] : List Int).length = 6 ∧ 1 ≤ 6 ∧
      (∀ v ∈ ([0, 0, 2, 1, 0, 1] : List Int), 0 ≤ v)) ∧
    ((sortItem 6 [0, 0, 2, 1, 0, 1]).1.length = 2 * 6 - 1 ∧
     (sortItem 6 [0, 0, 2, 1, 0, 1]).2.length = 2 * 6 - 1 ∧
     (sortItem 6 [0, 0, 2, 1, 0, 1]).2.take (6 - 1) =
       List.replicate (6 - 1) (-1) ∧
     (∀ i v, 6 - 1 ≤ i → (sortItem 6 [0, 0, 2, 1, 0, 1]).2[i]? = some v →
       v ≠ -1) ∧
     List.Sorted (fun a b => a ≤ b)
       ((sortItem 6 [0, 0, 2, 1, 0, 1]).2.drop (6 - 1)) ∧
     ((sortItem 6 [0, 0, 2, 1, 0, 1]).2.drop (6 - 1)).Perm
       ((sortItem 6 [0, 0, 2, 1, 0, 1]).1.take 6)) :=
  ⟨⟨rfl, by decide, by decide⟩,
   sort_item_target_properties 6 [0, 0, 2, 1, 0, 1] rfl (by decide) (by decide)⟩

/-- Claim C8: `SortDataset.__getitem__` uses unbounded rejection
sampling.  For every stream of draws none of which is accepted, the loop
returns nothing at every fuel bound (it has no retry cap and no failure
signal: it simply does not terminate); and whenever the loop does return
a sequence, that sequence is the first accepted draw's, and its
hash-derived split label equals the dataset's requested split. -/
theorem rejection_sampling_unbounded (dumps : List Int → List Nat)
    (ph : List Nat → Int) (split : String) (len : Nat)
    (stream : Nat → Draw)
    (hreject : ∀ i, acceptsDraw dumps ph split len (stream i) = false) :
    (∀ start fuel, rejectionLoop dumps ph split len stream start fuel = none) ∧
    (∀ (st : Nat → Draw) (start fuel : Nat) (out : List Int),
      rejectionLoop dumps ph split len st start fuel = some out →
      ∃ j, start ≤ j ∧ j < start + fuel ∧
        acceptsDraw dumps ph split len (st j) = true ∧
        (st j).inp = out ∧ splitLabel dumps ph out = split) := by
  constructor
  · intro start fuel
    induction fuel generalizing start with
    | zero => rfl
    | succ fuel ih =>
      simp only [rejectionLoop, hreject start, Bool.false_eq_true, if_false]
      exact ih (start + 1)
  · intro st start fuel
    induction fuel generalizing start with
    | zero =>
      intro out h
      simp [rejectionLoop] at h
    | succ fuel ih =>
      intro out h
      simp only [rejectionLoop] at h
      by_cases hacc : acceptsDraw dumps ph split len (st start) = true
      · rw [if_pos hacc] at h
        obtain rfl : (st start).inp = out := by injection h
        refine ⟨start, Nat.le_refl _, by omega, hacc, rfl, ?_⟩
        have h2 := hacc
        rw [acceptsDraw] at h2
        split at h2
        · exact absurd h2 (by simp)
        · exact eq_of_beq h2
      · rw [if_neg hacc] at h
        obtain ⟨j, hj1, hj2, hj3, hj4, hj5⟩ := ih (start + 1) out h
        exact ⟨j, by omega, by omega, hj3, hj4, hj5⟩

theorem rejection_sampling_unbounded_witness :
    (∀ (i : Nat), acceptsDraw (fun _ => ([] : List Nat)) (fun _ => (1 : Int))
        "train" 0 ((fun _ : Nat => Draw.mk [0] true) i) = false) ∧
    ((∀ (start fuel : Nat), rejectionLoop (fun _ => ([] : List Nat))
        (fun _ => (1 : Int)) "train" 0 (fun _ : Nat => Draw.mk [0] true)
        start fuel = none) ∧
     (∀ (st : Nat → Draw) (start fuel : Nat) (out : List Int),
        rejectionLoop (fun _ => ([] : List Nat)) (fun _ => (1 : Int)) "train" 0
          st start fuel = some out →
        ∃ j, start ≤ j ∧ j < start + fuel ∧
          acceptsDraw (fun _ => ([] : List Nat)) (fun _ => (1 : Int)) "train" 0
            (st j) = true ∧
          (st j).inp = out ∧
          splitLabel (fun _ => ([] : List Nat)) (fun _ => (1 : Int)) out =
            "train")) :=
  ⟨fun _ => rfl,
   rejection_sampling_unbounded (fun _ => ([] : List Nat)) (fun _ => (1 : Int))
     "train" 0 (fun _ : Nat => Draw.mk [0] true) (fun _ => rfl)⟩

theorem triggerCallbacks_lift_ok {σ ε : Type} :
    ∀ (pre : List (σ → σ)) (s : σ),
    triggerCallbacks (pre.map liftCb : List (σ → Except ε σ)) s =
      Except.ok (pre.foldl (fun a f => f a) s) := by
  intro pre
  induction pre with
  | nil => intro s; rfl
  | cons f pre ih =>
    intro s
    simpa [triggerCallbacks, liftCb] using ih (f s)

theorem triggerCallbacks_error_skips_rest {σ ε : Type} (e : ε) :
    ∀ (pre : List (σ → σ)) (rest : List (σ → Except ε σ)) (s : σ),
    triggerCallbacks
      ((pre.map liftCb : List (σ → Except ε σ)) ++
        (fun _ => Except.error e) :: rest) s = Except.error e := by
  intro pre
  induction pre with
  | nil => intro rest s; rfl
  | cons f pre ih =>
    intro rest s
    simpa [triggerCallbacks, liftCb] using ih rest (f s)

/-- Claim C9: `add_callback` appends to the registration list;
`trigger_callbacks` invokes the registered callbacks synchronously, in
registration order, each with the trainer state as sole argument (the
state threads left-to-right, so the result of a run in which no callback
raises is the in-order composition); and there is no error isolation: a
raising callback makes the dispatch evaluate to that error, every
callback registered after it never runs (the result is independent of
`post`), and an outer loop whose body contains the dispatch performs no
later iteration. -/
theorem callbacks_in_order_and_error_propagation {σ ε : Type}
    (pre post : List (σ → σ)) (e : ε) (s : σ)
    (cbs : List (σ → Except ε σ)) (cb : σ → Except ε σ) (n : Nat) :
    addCallback cbs cb = cbs ++ [cb] ∧
    triggerCallbacks (pre.map liftCb : List (σ → Except ε σ)) s =
      Except.ok (pre.foldl (fun a f => f a) s) ∧
    triggerCallbacks
      ((pre.map liftCb : List (σ → Except ε σ)) ++
        (fun _ => Except.error e) :: (post.map liftCb : List (σ → Except ε σ)))
      s = Except.error e ∧
    runCycles
      (fun st => triggerCallbacks
        ((pre.map liftCb : List (σ → Except ε σ)) ++
          (fun _ => Except.error e) ::
            (post.map liftCb : List (σ → Except ε σ))) st)
      (n + 1) s = Except.error e := by
  refine ⟨rfl, triggerCallbacks_lift_ok pre s,
    triggerCallbacks_error_skips_rest e pre _ s, ?_⟩
  simp only [runCycles, triggerCallbacks_error_skips_rest e pre _ s]
